import Mathlib

/-!
Verification development for the OpenViking memory plugin
(`openclaw-memory-openviking`), centred on the sync reconciliation engine of
`src/manager.ts` (`OpenVikingMemoryManager`, final revision).

The TypeScript code is shallowly embedded: remote HTTP calls issued through
`OpenVikingClient` are modelled by an oracle of pure functions together with an
explicit trace of the calls made, filesystem and JSON-parsing results consumed
by the manager are supplied as inputs, and the manager instance state is an
explicit record threaded through the operations. Wall-clock timestamp fields
(`lastRunStartedAt`, `lastRunCompletedAt`) are omitted: no claim depends on
them. Where a claim depends on code whose latest revision is not part of the
repository snapshot (only its tests are), the corresponding definition is
marked `Modelled from the spec:` in its doc comment.
-/

namespace OV

/-- Check whether the character list `pat` is an initial segment of `l`. -/
def charsLead : List Char → List Char → Bool
  | [], _ => true
  | _ :: _, [] => false
  | p :: ps, c :: cs => p == c && charsLead ps cs

/-- Check whether the character list `pat` occurs contiguously inside `l`. -/
def charsHasSub (pat : List Char) : List Char → Bool
  | [] => charsLead pat []
  | c :: cs => charsLead pat (c :: cs) || charsHasSub pat cs

/-- JavaScript `text.includes(pat)`: substring test on strings. -/
def strContains (s pat : String) : Bool :=
  charsHasSub pat.data s.data

/-- Check whether the string `s` starts with `pat` (character-list based, so
that closed instances evaluate inside the kernel). -/
def strStarts (s pat : String) : Bool :=
  charsLead pat.data s.data

/-- Check whether the string `s` ends with `pat`. -/
def strEnds (s pat : String) : Bool :=
  charsLead pat.data.reverse s.data.reverse

/-- JavaScript `s.trim()`: drop whitespace from both ends. -/
def strTrim (s : String) : String :=
  String.mk (((s.data.dropWhile Char.isWhitespace).reverse.dropWhile
    Char.isWhitespace).reverse)

/-- ASCII lowercasing, character by character (the behaviour of
`String.toLower` / JavaScript `toLowerCase` on the ASCII texts the heuristics
inspect). -/
def strLower (s : String) : String :=
  String.mk (s.data.map Char.toLower)

/-- Split a string at every occurrence of the separator character, keeping
empty segments (the behaviour of `split(sep)`). -/
def splitOnCharAux (sep : Char) : List Char → List Char → List String
  | [], cur => [String.mk cur.reverse]
  | c :: cs, cur =>
      if c == sep then String.mk cur.reverse :: splitOnCharAux sep cs []
      else splitOnCharAux sep cs (c :: cur)

/-- Split a string on a separator character. -/
def splitOnChar (sep : Char) (s : String) : List String :=
  splitOnCharAux sep s.data []

/-- Join a list of strings with a separator (the behaviour of `join(sep)`). -/
def joinWith (sep : String) (l : List String) : String :=
  String.mk (List.intercalate sep.data (l.map String.data))

/-- JavaScript `uri.replace(/\/+$/, "")` from `normalizeUri` in
`src/manager.ts`: drop every trailing slash. -/
def normalizeUri (uri : String) : String :=
  String.mk (uri.data.reverse.dropWhile (fun c => c == '/')).reverse

/-- JavaScript `s.replace(/\\/g, "/")`: map each backslash to a slash. -/
def backslashToSlash (s : String) : String :=
  String.mk (s.data.map (fun c => if c == '\\' then '/' else c))

/-- JavaScript `s.replace(/^\/+/, "")`: drop every leading slash. -/
def stripLeadingSlashes (s : String) : String :=
  String.mk (s.data.dropWhile (fun c => c == '/'))

/-- One step of the segment normalisation of `path.posix.normalize`: empty and
`.` segments are dropped, `..` pops the previous segment when possible and is
kept (for relative paths) when there is nothing left to pop. The accumulator
holds the already-processed segments in reverse order. -/
def posixNormStep (isAbs : Bool) (acc : List String) (seg : String) : List String :=
  if seg = "" || seg = "." then acc
  else if seg = ".." then
    match acc with
    | [] => if isAbs then [] else [".."]
    | top :: rest => if top = ".." then ".." :: top :: rest else rest
  else seg :: acc

/-- Node `path.posix.normalize`, as used by `ensureSafeRelPath`. -/
def posixNormalize (p : String) : String :=
  if p = "" then "."
  else
    let isAbs := strStarts p "/"
    let trailingSep := strEnds p "/"
    let body := joinWith "/" (((splitOnChar '/' p).foldl (posixNormStep isAbs) []).reverse)
    if body = "" then
      if isAbs then "/" else if trailingSep then "./" else "."
    else
      let body := if trailingSep then body ++ "/" else body
      if isAbs then "/" ++ body else body

/-- The rejection test of `ensureSafeRelPath` on the normalised path:
`safe.startsWith("../") || safe.includes("/../") || safe === ".."`. -/
def escapesWorkspace (safe : String) : Bool :=
  strStarts safe "../" || strContains safe "/../" || safe == ".."

/-- `OpenVikingMemoryManager.ensureSafeRelPath`: trim, convert backslashes,
strip leading slashes, normalise, then reject empty input and any path that
would traverse above the workspace root. -/
def ensureSafeRelPath (input : String) : Except String String :=
  let trimmed := strTrim input
  if trimmed = "" then Except.error "path required"
  else
    let normalized := stripLeadingSlashes (backslashToSlash trimmed)
    let safe := posixNormalize normalized
    if escapesWorkspace safe then Except.error ("invalid path: " ++ input)
    else Except.ok safe

/-- `OpenVikingHttpError`: status code, optional machine-readable code, message
and the JSON rendering of the optional `details` payload. -/
structure HttpError where
  status : Nat
  code : Option String
  message : String
  detailsJson : Option String
  deriving DecidableEq, Repr

/-- An error thrown by a remote client call: a structured
`OpenVikingHttpError`, a plain `Error` (only its message is inspected), or a
thrown non-`Error` value. -/
inductive RemoteError where
  | http (e : HttpError)
  | err (message : String)
  | nonError
  deriving DecidableEq, Repr

/-- `looksLikeMissingPath` from `src/manager.ts`: message-substring heuristics
for a missing remote path. -/
def looksLikeMissingPath (text : String) : Bool :=
  strContains text "no such file or directory" ||
  strContains text "no such directory" ||
  strContains text "not found" ||
  strContains text "path not found"

/-- `looksLikeExistingPath` from `src/manager.ts`: message-substring heuristics
for a pre-existing remote path. -/
def looksLikeExistingPath (text : String) : Bool :=
  strContains text "already exists" ||
  strContains text "file exists" ||
  strContains text "directory exists"

/-- The regex test `/not[_-]?found/i.test(code)`. -/
def codeLooksNotFound (code : String) : Bool :=
  let c := strLower code
  strContains c "notfound" || strContains c "not_found" || strContains c "not-found"

/-- The regex test `/already[_-]?exists/i.test(code)`. -/
def codeLooksAlreadyExists (code : String) : Bool :=
  let c := strLower code
  strContains c "alreadyexists" || strContains c "already_exists" || strContains c "already-exists"

/-- `[error.message, error.details ? JSON.stringify(error.details) : ""]`
filtered for truthiness, joined with a space, lowercased. -/
def httpErrorText (e : HttpError) : String :=
  strLower (joinWith " "
    (([e.message, e.detailsJson.getD ""]).filter (fun s => s ≠ "")))

/-- `shouldIgnoreMissingPathError`: classify an error as a benign
"missing path" condition. -/
def shouldIgnoreMissingPathError : RemoteError → Bool
  | RemoteError.http e =>
      if e.status == 404 then true
      else if (match e.code with | some c => codeLooksNotFound c | none => false) then true
      else looksLikeMissingPath (httpErrorText e)
  | RemoteError.err message => looksLikeMissingPath (strLower message)
  | RemoteError.nonError => false

/-- `shouldIgnoreExistingPathError`: classify an error as a benign
"already exists" condition. -/
def shouldIgnoreExistingPathError : RemoteError → Bool
  | RemoteError.http e =>
      if e.status == 409 then true
      else if (match e.code with | some c => codeLooksAlreadyExists c | none => false) then true
      else looksLikeExistingPath (httpErrorText e)
  | RemoteError.err message => looksLikeExistingPath (strLower message)
  | RemoteError.nonError => false

deriving instance DecidableEq for Except

/-- One remote API call issued by the engine, recorded in order. -/
inductive RemoteCall where
  | stat (uri : String)
  | mkdir (uri : String)
  | remove (uri : String) (recursive : Bool)
  | addResource (path : String) (target : String)
  | move (fromUri : String) (toUri : String)
  | waitProcessed
  | readContent (uri : String)
  | overview (uri : String)
  deriving DecidableEq, Repr

/-- The remote service as seen through `OpenVikingClient`: each operation
either succeeds or throws a `RemoteError`. `addResource` returns the `root_uri`
field of the import result (`none` when the field is absent). The oracle is a
fixed function of the call arguments; the trace of calls is recorded
separately by the engine model. -/
structure RemoteOracle where
  stat : String → Option RemoteError
  mkdir : String → Option RemoteError
  remove : String → Bool → Option RemoteError
  addResource : String → String → Except RemoteError (Option String)
  move : String → String → Option RemoteError
  waitProcessed : Option RemoteError
  read : String → Except RemoteError String
  overview : String → Except RemoteError String

/-- `pathExists`: `client.stat(uri)` returning `true` on success, `false` on a
benign missing-path error, rethrowing anything else. -/
def pathExists (o : RemoteOracle) (uri : String) :
    Except RemoteError Bool × List RemoteCall :=
  match o.stat uri with
  | none => (Except.ok true, [RemoteCall.stat uri])
  | some e =>
      if shouldIgnoreMissingPathError e then (Except.ok false, [RemoteCall.stat uri])
      else (Except.error e, [RemoteCall.stat uri])

/-- `ensureTargetParent`: skip when the parent exists, otherwise `mkdir`,
treating a benign "already exists" error as success. -/
def ensureTargetParent (o : RemoteOracle) (uri : String) :
    Except RemoteError Unit × List RemoteCall :=
  match pathExists o uri with
  | (Except.error e, t) => (Except.error e, t)
  | (Except.ok true, t) => (Except.ok (), t)
  | (Except.ok false, t) =>
      match o.mkdir uri with
      | none => (Except.ok (), t ++ [RemoteCall.mkdir uri])
      | some e =>
          if shouldIgnoreExistingPathError e then (Except.ok (), t ++ [RemoteCall.mkdir uri])
          else (Except.error e, t ++ [RemoteCall.mkdir uri])

/-- `tryRemove`: skip when the path is already missing, otherwise
`remove(uri, recursive = true)`, treating a benign "not found" error
as success. -/
def tryRemove (o : RemoteOracle) (uri : String) :
    Except RemoteError Unit × List RemoteCall :=
  match pathExists o uri with
  | (Except.error e, t) => (Except.error e, t)
  | (Except.ok false, t) => (Except.ok (), t)
  | (Except.ok true, t) =>
      match o.remove uri true with
      | none => (Except.ok (), t ++ [RemoteCall.remove uri true])
      | some e =>
          if shouldIgnoreMissingPathError e then (Except.ok (), t ++ [RemoteCall.remove uri true])
          else (Except.error e, t ++ [RemoteCall.remove uri true])

/-- `LocalSyncFile`: one candidate produced by `collectLocalSyncFiles`. -/
structure LocalSyncFile where
  relPath : String
  fullPath : String
  desiredRootUri : String
  targetParentUri : String
  fingerprint : String
  deriving DecidableEq, Repr

/-- `syncFile` on a `LocalSyncFile` (final revision): ensure the target
parent, clear the desired root URI, import into the parent, then — when
the imported root URI differs from the desired one after trailing-slash
normalisation — clear the desired URI again and move the imported root there.
A falsy (`undefined` or empty) `root_uri` in the import result is an error. -/
def syncFile (o : RemoteOracle) (file : LocalSyncFile) :
    Except RemoteError Unit × List RemoteCall :=
  match ensureTargetParent o file.targetParentUri with
  | (Except.error e, t1) => (Except.error e, t1)
  | (Except.ok _, t1) =>
    match tryRemove o file.desiredRootUri with
    | (Except.error e, t2) => (Except.error e, t1 ++ t2)
    | (Except.ok _, t2) =>
      match o.addResource file.fullPath file.targetParentUri with
      | Except.error e =>
          (Except.error e,
           t1 ++ t2 ++ [RemoteCall.addResource file.fullPath file.targetParentUri])
      | Except.ok rootUriField =>
        match rootUriField with
        | none =>
            (Except.error
              (RemoteError.err ("OpenViking import result missing root_uri: " ++ file.relPath)),
             t1 ++ t2 ++ [RemoteCall.addResource file.fullPath file.targetParentUri])
        | some importedRoot =>
            if importedRoot = "" then
              (Except.error
                (RemoteError.err ("OpenViking import result missing root_uri: " ++ file.relPath)),
               t1 ++ t2 ++ [RemoteCall.addResource file.fullPath file.targetParentUri])
            else if normalizeUri importedRoot = normalizeUri file.desiredRootUri then
              (Except.ok (),
               t1 ++ t2 ++ [RemoteCall.addResource file.fullPath file.targetParentUri])
            else
              match tryRemove o file.desiredRootUri with
              | (Except.error e, t3) =>
                  (Except.error e,
                   t1 ++ t2 ++ [RemoteCall.addResource file.fullPath file.targetParentUri] ++ t3)
              | (Except.ok _, t3) =>
                match o.move importedRoot file.desiredRootUri with
                | none =>
                    (Except.ok (),
                     t1 ++ t2 ++ [RemoteCall.addResource file.fullPath file.targetParentUri]
                        ++ t3 ++ [RemoteCall.move importedRoot file.desiredRootUri])
                | some e =>
                    (Except.error e,
                     t1 ++ t2 ++ [RemoteCall.addResource file.fullPath file.targetParentUri]
                        ++ t3 ++ [RemoteCall.move importedRoot file.desiredRootUri])

/-- `SyncedFileSnapshot`: per-file entry of the in-memory snapshot map. -/
structure SyncedFileSnapshot where
  fingerprint : String
  uri : String
  deriving DecidableEq, Repr

/-- Lookup in an association list, mirroring JavaScript `Map.get`. -/
def alistLookup {α : Type} : List (String × α) → String → Option α
  | [], _ => none
  | (k, v) :: rest, key => if k == key then some v else alistLookup rest key

/-- Insertion in an association list, mirroring JavaScript `Map.set`: an
existing key is updated in place, a new key is appended. -/
def alistSet {α : Type} : List (String × α) → String → α → List (String × α)
  | [], key, v => [(key, v)]
  | (k, w) :: rest, key, v =>
      if k == key then (k, v) :: rest else (k, w) :: alistSet rest key v

/-- Deletion from an association list, mirroring JavaScript `Map.delete`. -/
def alistErase {α : Type} : List (String × α) → String → List (String × α)
  | [], _ => []
  | (k, w) :: rest, key => if k == key then rest else (k, w) :: alistErase rest key

/-- `PersistedSyncLastRunStatus`. -/
inductive RunStatus where
  | running
  | success
  | failed
  deriving DecidableEq, Repr

/-- The manager instance state relevant to reconciliation: the snapshot map,
the recorded external-config fingerprint, the last-run metadata, the crash
recovery flag, and the load-once guard. -/
structure ManagerState where
  syncedSnapshot : List (String × SyncedFileSnapshot)
  ovConfigPath : Option String
  ovConfigFingerprint : Option String
  lastRunStatus : RunStatus
  lastRunReason : Option String
  snapshotRecoveryNeeded : Bool
  snapshotLoaded : Bool
  deriving DecidableEq, Repr

/-- Field defaults of a freshly constructed `OpenVikingMemoryManager`. -/
def freshManagerState : ManagerState where
  syncedSnapshot := []
  ovConfigPath := none
  ovConfigFingerprint := none
  lastRunStatus := RunStatus.success
  lastRunReason := none
  snapshotRecoveryNeeded := false
  snapshotLoaded := false

/-- The state right after `ensureSnapshotLoaded` found no usable persisted
snapshot: identical to the fresh state except the load-once guard is set. -/
def loadedAbsentState : ManagerState :=
  { freshManagerState with snapshotLoaded := true }

/-- One element of the persisted `entries` array as found by `JSON.parse`:
either not an object, or an object whose three expected fields each are a
string (`some`) or missing/not a string (`none`). -/
inductive JsonEntry where
  | nonObject
  | obj (relPath : Option String) (fingerprint : Option String) (uri : Option String)
  deriving DecidableEq, Repr

/-- The dynamically-typed result of `JSON.parse` on the snapshot file, as the
loader inspects it: `version` is `some n` exactly when the field is the JSON
number `n`; `agentIdIsString` records `typeof parsed.agentId === "string"`;
`entries` is `some` exactly when `Array.isArray(parsed.entries)`; the
remaining fields are `some` exactly when present as strings. -/
structure ParsedState where
  version : Option Int
  agentIdIsString : Bool
  entries : Option (List JsonEntry)
  ovConfigPath : Option String
  ovConfigFingerprint : Option String
  lastRunStatus : Option String
  lastRunReason : Option String
  deriving DecidableEq, Repr

/-- The outcome of reading and parsing the snapshot file, supplied by the
environment: the file is missing (`ENOENT`), reading failed otherwise,
`JSON.parse` threw, or parsing produced a value. -/
inductive LoadInput where
  | missing
  | readError
  | parseError
  | parsed (p : ParsedState)
  deriving DecidableEq, Repr

/-- `parsed.version === 1 || parsed.version === 2 || parsed.version === 3`
(the loader accepts schema versions 1 to 3). -/
def versionSupported (v : Option Int) : Bool :=
  v == some 1 || v == some 2 || v == some 3

/-- The conditional assigning `snapshotLastRunStatus` in
`ensureSnapshotLoaded`: any unrecognised value falls back to `success`. -/
def parseRunStatus : Option String → RunStatus
  | some "running" => RunStatus.running
  | some "success" => RunStatus.success
  | some "failed" => RunStatus.failed
  | _ => RunStatus.success

/-- The entry-loading loop of `ensureSnapshotLoaded`: non-objects, entries
with missing or non-string fields, and entries whose `relPath` fails
`ensureSafeRelPath` are skipped; the rest populate the snapshot map. -/
def loadEntries (entries : List JsonEntry) : List (String × SyncedFileSnapshot) :=
  entries.foldl
    (fun acc e =>
      match e with
      | JsonEntry.nonObject => acc
      | JsonEntry.obj relPathField fingerprintField uriField =>
        match relPathField, fingerprintField, uriField with
        | some rp, some fp, some uri =>
          match ensureSafeRelPath rp with
          | Except.error _ => acc
          | Except.ok safe => alistSet acc safe ⟨fp, uri⟩
        | _, _, _ => acc)
    []

/-- `ensureSnapshotLoaded`: a no-op once the guard is set; otherwise the guard
is set and the load input is interpreted. A missing file, a read failure, a
parse failure, and a parsed value with unsupported version, non-string
`agentId` or non-array `entries` all leave the absent defaults in place. A
valid parsed value populates the snapshot map and run metadata and sets the
recovery flag exactly when the loaded status is `running` or `failed`. -/
def applyLoad (st : ManagerState) (input : LoadInput) : ManagerState :=
  if st.snapshotLoaded then st
  else
    let st := { st with snapshotLoaded := true }
    match input with
    | LoadInput.missing => st
    | LoadInput.readError => st
    | LoadInput.parseError => st
    | LoadInput.parsed p =>
      if !versionSupported p.version || !p.agentIdIsString || p.entries.isNone then st
      else
        let status := parseRunStatus p.lastRunStatus
        { st with
          syncedSnapshot := loadEntries (p.entries.getD [])
          ovConfigPath := p.ovConfigPath
          ovConfigFingerprint := p.ovConfigFingerprint
          lastRunStatus := status
          lastRunReason := p.lastRunReason
          snapshotRecoveryNeeded :=
            (status == RunStatus.running) || (status == RunStatus.failed) }

/-- `OvConfigState`: path and content fingerprint of the watched external
`ov.conf` file, as produced by `readOvConfigState` for the current run. -/
structure OvConfigState where
  path : Option String
  fingerprint : Option String
  deriving DecidableEq, Repr

/-- `hasOvConfigChanged`: no change when both the current and the recorded
path are absent; otherwise a change when the paths differ, or when the
fingerprints differ. -/
def hasOvConfigChanged (st : ManagerState) (cur : OvConfigState) : Bool :=
  if cur.path.isNone && st.ovConfigPath.isNone then false
  else if cur.path != st.ovConfigPath then true
  else cur.fingerprint != st.ovConfigFingerprint

/-- The `filesToSync` partition of `sync`: everything under a full sync;
otherwise exactly the candidates with no snapshot entry, a fingerprint
mismatch, or a desired root URI that no longer matches the recorded one after
trailing-slash normalisation. -/
def planFilesToSync (forceFullSync : Bool)
    (snapshot : List (String × SyncedFileSnapshot))
    (localFiles : List LocalSyncFile) : List LocalSyncFile :=
  if forceFullSync then localFiles
  else
    localFiles.filter (fun file =>
      match alistLookup snapshot file.relPath with
      | none => true
      | some previous =>
          (previous.fingerprint != file.fingerprint) ||
          (normalizeUri previous.uri != normalizeUri file.desiredRootUri))

/-- The `staleEntries` computation of `sync`: snapshot entries whose relative
path is absent from the scanned candidate set. -/
def staleEntriesOf (snapshot : List (String × SyncedFileSnapshot))
    (localFiles : List LocalSyncFile) : List (String × SyncedFileSnapshot) :=
  snapshot.filter (fun e => !(localFiles.any (fun f => f.relPath == e.1)))

/-- The mutable state of the executing phase of one run: the live snapshot
map, the `syncHadErrors` flag, and the trace of remote calls so far. -/
structure RunOutcome where
  snapshot : List (String × SyncedFileSnapshot)
  hadErrors : Bool
  trace : List RemoteCall
  deriving DecidableEq, Repr

/-- Boolean success test on a client call result. -/
def isOkB {α : Type} : Except RemoteError α → Bool
  | Except.ok _ => true
  | Except.error _ => false

/-- The `previousUri` computation of the upsert loop: the recorded URI of the
snapshot entry when it differs from the newly desired URI after
normalisation. -/
def previousUriFor (snapshot : List (String × SyncedFileSnapshot)) (file : LocalSyncFile) :
    Option String :=
  match alistLookup snapshot file.relPath with
  | some prev =>
      if normalizeUri prev.uri != normalizeUri file.desiredRootUri then some prev.uri
      else none
  | none => none

/-- The trace of the best-effort removal of the previously recorded URI
(failures are swallowed by `.catch`, so only the calls remain visible). -/
def cleanupTraceFor (o : RemoteOracle) (previousUri : Option String) : List RemoteCall :=
  match previousUri with
  | some pu => (tryRemove o pu).2
  | none => []

/-- One iteration of the per-file upsert loop of `sync`: remember the
previously recorded URI when it differs from the newly desired one, run
`syncFile`, and on success best-effort-remove the old URI (failures are
swallowed) and update the snapshot entry; on failure set `syncHadErrors` and
continue. -/
def upsertStep (o : RemoteOracle) (acc : RunOutcome) (file : LocalSyncFile) : RunOutcome :=
  match syncFile o file with
  | (Except.ok _, t) =>
      { snapshot := alistSet acc.snapshot file.relPath ⟨file.fingerprint, file.desiredRootUri⟩
        hadErrors := acc.hadErrors
        trace := acc.trace ++ t ++ cleanupTraceFor o (previousUriFor acc.snapshot file) }
  | (Except.error _, t) =>
      { acc with hadErrors := true, trace := acc.trace ++ t }

/-- One iteration of the stale-removal loop of `sync`: remove the remote
counterpart and on success delete the snapshot entry; on failure set
`syncHadErrors` and continue. -/
def staleStep (o : RemoteOracle) (acc : RunOutcome) (entry : String × SyncedFileSnapshot) :
    RunOutcome :=
  match tryRemove o entry.2.uri with
  | (Except.ok _, t) =>
      { snapshot := alistErase acc.snapshot entry.1
        hadErrors := acc.hadErrors
        trace := acc.trace ++ t }
  | (Except.error _, t) =>
      { acc with hadErrors := true, trace := acc.trace ++ t }

/-- The sync configuration consumed by the run: whether to wait for the
remote processing queues after the loops. -/
structure SyncConfigModel where
  waitForProcessing : Bool
  deriving DecidableEq, Repr

/-- The executing phase of one run: the upsert loop, then the stale-removal
loop, then the optional queue wait whose failure also sets `syncHadErrors`. -/
def executePhase (o : RemoteOracle) (cfg : SyncConfigModel)
    (snapshot : List (String × SyncedFileSnapshot))
    (plan : List LocalSyncFile) (stale : List (String × SyncedFileSnapshot)) : RunOutcome :=
  let acc1 := plan.foldl (upsertStep o) ⟨snapshot, false, []⟩
  let acc2 := stale.foldl (staleStep o) acc1
  if cfg.waitForProcessing then
    match o.waitProcessed with
    | none => ⟨acc2.snapshot, acc2.hadErrors, acc2.trace ++ [RemoteCall.waitProcessed]⟩
    | some _ => ⟨acc2.snapshot, true, acc2.trace ++ [RemoteCall.waitProcessed]⟩
  else acc2

/-- The upsert set of one `sync` invocation, as a function of the pre-run
state: a full sync is forced by the explicit flag, an external-config change,
or the pending recovery flag. -/
def syncRunFilesToSync (st : ManagerState) (force : Bool) (ov : OvConfigState)
    (files : List LocalSyncFile) : List LocalSyncFile :=
  planFilesToSync (force || hasOvConfigChanged st ov || st.snapshotRecoveryNeeded)
    st.syncedSnapshot files

/-- `OpenVikingMemoryManager.sync` (final revision), after `ensureOpen` and
`ensureSnapshotLoaded`: the scan result and the current external-config state
are supplied as inputs. The running marker (status `running`, reason, cleared
recovery flag) is written first; planning computes the forced-full flag, the
stale entries and the upsert set from the loaded snapshot; the executing
phase runs; the `finally` block persists the final status — `success` exactly
when no per-file upsert, stale removal or queue wait failed — and re-arms the
recovery flag on failure. Per-file failures are caught inside the loops, so
the function is total: the returned state and trace are always defined. -/
def syncRun (st0 : ManagerState) (force : Bool) (ov : OvConfigState)
    (files : List LocalSyncFile) (o : RemoteOracle) (cfg : SyncConfigModel)
    (reason : String) : ManagerState × List RemoteCall :=
  let recoveryRequired := st0.snapshotRecoveryNeeded
  let ovConfigChanged := hasOvConfigChanged st0 ov
  let forceFullSync := force || ovConfigChanged || recoveryRequired
  let stale := staleEntriesOf st0.syncedSnapshot files
  let plan := planFilesToSync forceFullSync st0.syncedSnapshot files
  let outcome := executePhase o cfg st0.syncedSnapshot plan stale
  ({ st0 with
      syncedSnapshot := outcome.snapshot
      ovConfigPath := ov.path
      ovConfigFingerprint := ov.fingerprint
      lastRunStatus := if outcome.hadErrors then RunStatus.failed else RunStatus.success
      lastRunReason := some reason
      snapshotRecoveryNeeded := outcome.hadErrors },
   outcome.trace)

/-- Predicate picking out import (`addResource`) calls in a trace. -/
def isAddResourceCall : RemoteCall → Bool
  | RemoteCall.addResource _ _ => true
  | _ => false

/-- Predicate picking out import calls for one specific local file path. -/
def isImportOf (fullPath : String) : RemoteCall → Bool
  | RemoteCall.addResource p _ => p == fullPath
  | _ => false

/-- Number of import calls in a trace. -/
def importCount (trace : List RemoteCall) : Nat :=
  trace.countP isAddResourceCall

/-- A predicate that can only hold on import calls (used to count imports,
globally or per file, through the run loops). -/
def ImportOnlyPred (q : RemoteCall → Bool) : Prop :=
  (∀ u, q (RemoteCall.stat u) = false) ∧
  (∀ u, q (RemoteCall.mkdir u) = false) ∧
  (∀ u b, q (RemoteCall.remove u b) = false) ∧
  (∀ a b, q (RemoteCall.move a b) = false) ∧
  q RemoteCall.waitProcessed = false ∧
  (∀ u, q (RemoteCall.readContent u) = false) ∧
  (∀ u, q (RemoteCall.overview u) = false)

/-- A snapshot entry matching a candidate: same fingerprint and same desired
root URI up to trailing-slash normalisation — exactly the condition under
which the partition skips the candidate. -/
def entryMatches (snapshot : List (String × SyncedFileSnapshot)) (f : LocalSyncFile) : Prop :=
  ∃ e, alistLookup snapshot f.relPath = some e ∧
    e.fingerprint = f.fingerprint ∧ normalizeUri e.uri = normalizeUri f.desiredRootUri

/-- The line-range slicing of `sliceLines`: with both bounds absent the text
is returned untouched; otherwise the text is split on newlines and the JS
`slice(start, end)` window is applied with the clamping of the source. -/
def sliceLines (content : String) (fromQ linesQ : Option Int) : String :=
  match fromQ, linesQ with
  | none, none => content
  | _, _ =>
    let allLines := splitOnChar '\n' content
    let start : Int := max 0 ((fromQ.getD 1) - 1)
    let stop : Int :=
      match linesQ with
      | none => allLines.length
      | some n => max start (min (allLines.length : Int) (start + n))
    joinWith "\n" ((allLines.take stop.toNat).drop start.toNat)

/-- The `{ text, path }` result of `readFile`. -/
structure ReadResult where
  text : String
  path : String
  deriving DecidableEq, Repr

/-- The errors `readFile` can surface to its caller: the manager is closed,
the relative path is invalid, or the local fallback read itself failed (the
raw filesystem error propagates in the final revision). -/
inductive ReadError where
  | closed
  | invalidPath (message : String)
  | localFs (message : String)
  deriving DecidableEq, Repr

/-- `OpenVikingMemoryManager.readFile`: validate the path, choose the remote
read (exact line requests and disabled tiered loading read the content URI
directly; otherwise the overview of the root URI is tried first with the
content URI as fallback), and on any remote failure fall back to the local
workspace file, slicing the obtained text to the requested range. The local
read result is supplied by `localRead`; `tieredLoading` is the raw optional
config value (`=== false` disables tiering). -/
def readFileOp (o : RemoteOracle) (localRead : String → Except String String)
    (toRoot toContent : String → String) (tieredLoading : Option Bool) (closed : Bool)
    (relPathInput : String) (fromQ linesQ : Option Int) :
    Except ReadError ReadResult × List RemoteCall :=
  if closed then (Except.error ReadError.closed, [])
  else
    match ensureSafeRelPath relPathInput with
    | Except.error m => (Except.error (ReadError.invalidPath m), [])
    | Except.ok relPath =>
      let rootUri := toRoot relPath
      let contentUri := toContent relPath
      let requiresExactLines := fromQ.isSome || linesQ.isSome
      let remoteAttempt : Except RemoteError String × List RemoteCall :=
        if requiresExactLines || tieredLoading == some false then
          (o.read contentUri, [RemoteCall.readContent contentUri])
        else
          match o.overview rootUri with
          | Except.ok text => (Except.ok text, [RemoteCall.overview rootUri])
          | Except.error _ =>
              (o.read contentUri,
               [RemoteCall.overview rootUri, RemoteCall.readContent contentUri])
      match remoteAttempt with
      | (Except.ok text, t) =>
          (Except.ok ⟨sliceLines text fromQ linesQ, relPath⟩, t)
      | (Except.error _, t) =>
        match localRead relPath with
        | Except.ok content =>
            (Except.ok ⟨sliceLines content fromQ linesQ, relPath⟩, t)
        | Except.error m => (Except.error (ReadError.localFs m), t)

/-- The front of `OpenVikingMemoryManager.search`, up to the first remote
call: a closed manager throws; an empty trimmed query returns an empty result
list without any remote call; otherwise the trimmed query proceeds to the
remote find/search request. -/
inductive SearchOutcome where
  | closedError
  | emptyResults
  | remoteQuery (cleaned : String)
  deriving DecidableEq, Repr

/-- The entry of `search`: `ensureOpen`, then the empty-query short-circuit
`if (!cleaned) return []`, then the remote call with the trimmed query. -/
def searchEntry (closed : Bool) (query : String) : SearchOutcome :=
  if closed then SearchOutcome.closedError
  else if strTrim query = "" then SearchOutcome.emptyResults
  else SearchOutcome.remoteQuery (strTrim query)

/-- Modelled from the spec: the single-flight guard on `sync`. The manager
revision implementing it is not in the repository snapshot under `src` — only
its test ("joins concurrent sync calls to avoid duplicate imports") is — so
the guard is modelled from the spec sentences: a second sync request arriving
while a run is in flight joins (awaits) the in-flight run instead of starting
a duplicate, so it issues no remote calls of its own and both callers observe
the completion of the same run. `concurrentSyncPair` returns the state after
the joined run together with the combined remote trace of both calls, which
is exactly the trace of the single underlying run. -/
def concurrentSyncPair (st : ManagerState) (force : Bool) (ov : OvConfigState)
    (files : List LocalSyncFile) (o : RemoteOracle) (cfg : SyncConfigModel)
    (reason : String) : ManagerState × List RemoteCall :=
  let run := syncRun st force ov files o cfg reason
  (run.1, run.2)

/-- Modelled from the spec: the remote-drift adoption shortcut of the
per-file sync. The manager revision implementing it is not in the repository
snapshot under `src` — only its tests ("adopts remote snapshot when local
snapshot is missing and content matches", "syncs file when remote snapshot
content mismatches") are — so it is modelled from the spec sentence: before
treating a file with no snapshot entry as "must upload", check whether a
resource already exists at the desired root URI whose content (obtained by a
direct remote read of the supplied content URI) equals the local file bytes;
if so, adopt the desired URI into the snapshot without importing; otherwise
fall back to the ordinary `syncFile` protocol. The result carries the adopted
snapshot entry when adoption happened. -/
def adoptOrSyncFile (o : RemoteOracle) (localBytes : String) (contentUri : String)
    (hasSnapshotEntry : Bool) (file : LocalSyncFile) :
    Except RemoteError (Option SyncedFileSnapshot) × List RemoteCall :=
  if hasSnapshotEntry then
    match syncFile o file with
    | (Except.ok _, t) => (Except.ok none, t)
    | (Except.error e, t) => (Except.error e, t)
  else
    match pathExists o file.desiredRootUri with
    | (Except.error e, t) => (Except.error e, t)
    | (Except.ok false, t) =>
      match syncFile o file with
      | (Except.ok _, t2) => (Except.ok none, t ++ t2)
      | (Except.error e, t2) => (Except.error e, t ++ t2)
    | (Except.ok true, t) =>
      match o.read contentUri with
      | Except.ok remoteBytes =>
          if remoteBytes = localBytes then
            (Except.ok (some ⟨file.fingerprint, file.desiredRootUri⟩),
             t ++ [RemoteCall.readContent contentUri])
          else
            match syncFile o file with
            | (Except.ok _, t2) =>
                (Except.ok none, t ++ [RemoteCall.readContent contentUri] ++ t2)
            | (Except.error e, t2) =>
                (Except.error e, t ++ [RemoteCall.readContent contentUri] ++ t2)
      | Except.error _ =>
        match syncFile o file with
        | (Except.ok _, t2) =>
            (Except.ok none, t ++ [RemoteCall.readContent contentUri] ++ t2)
        | (Except.error e, t2) =>
            (Except.error e, t ++ [RemoteCall.readContent contentUri] ++ t2)

/-- Predicate picking out `mkdir` calls in a trace. -/
def isMkdirCall : RemoteCall → Bool
  | RemoteCall.mkdir _ => true
  | _ => false

/-- Predicate picking out `remove` calls in a trace. -/
def isRemoveCall : RemoteCall → Bool
  | RemoteCall.remove _ _ => true
  | _ => false

/-- A demonstration candidate file used by the concrete witnesses. -/
def demoFile : LocalSyncFile where
  relPath := "MEMORY.md"
  fullPath := "/ws/MEMORY.md"
  desiredRootUri := "viking://resources/openclaw/main/memory-sync/root/MEMORY"
  targetParentUri := "viking://resources/openclaw/main/memory-sync/root"
  fingerprint := "10:1700000000000"

/-- A demonstration oracle on which every remote mutation succeeds and
the import lands exactly at the desired root URI of `demoFile`. -/
def demoOkOracle : RemoteOracle where
  stat := fun _ => none
  mkdir := fun _ => none
  remove := fun _ _ => none
  addResource := fun _ _ =>
    Except.ok (some "viking://resources/openclaw/main/memory-sync/root/MEMORY")
  move := fun _ _ => none
  waitProcessed := none
  read := fun _ => Except.error (RemoteError.err "not found")
  overview := fun _ => Except.error (RemoteError.err "not found")

/-- A demonstration oracle exercising the tolerated races of the per-file
protocol: the target parent is reported missing but its creation races with
a concurrent creator ("directory exists", status 409), the desired URI exists
but its removal races ("path not found"), and the import lands at a URI that
differs from the desired one, forcing the move step. -/
def demoRaceOracle : RemoteOracle where
  stat := fun uri =>
    if uri = "viking://resources/openclaw/main/memory-sync/root" then
      some (RemoteError.http ⟨404, some "NOT_FOUND", "Resource not found", none⟩)
    else none
  mkdir := fun _ =>
    some (RemoteError.http ⟨409, some "ALREADY_EXISTS", "directory exists", none⟩)
  remove := fun _ _ => some (RemoteError.err "path not found")
  addResource := fun _ _ =>
    Except.ok (some "viking://resources/openclaw/main/memory-sync/root/MEMORY-copy")
  move := fun _ _ => none
  waitProcessed := none
  read := fun _ => Except.error (RemoteError.err "not found")
  overview := fun _ => Except.error (RemoteError.err "not found")

/-- A demonstration oracle for the drift-adoption scenario: the desired root
URI exists remotely and a direct content read returns exactly the local
bytes. -/
def demoAdoptOracle : RemoteOracle where
  stat := fun _ => none
  mkdir := fun _ => none
  remove := fun _ _ => none
  addResource := fun _ _ => Except.error (RemoteError.err "import should be skipped")
  move := fun _ _ => none
  waitProcessed := none
  read := fun _ => Except.ok "# memory\nline1\nline2\n"
  overview := fun _ => Except.error (RemoteError.err "not found")

/-- A parsed snapshot with an unsupported schema version. -/
def demoBadVersionState : ParsedState where
  version := some 7
  agentIdIsString := true
  entries := some []
  ovConfigPath := none
  ovConfigFingerprint := none
  lastRunStatus := some "success"
  lastRunReason := none

/-- A valid parsed snapshot whose previous run was left with status
`running` (a kill mid-run). -/
def demoRunningState : ParsedState where
  version := some 3
  agentIdIsString := true
  entries := some [JsonEntry.obj (some "MEMORY.md") (some "10:1700000000000")
    (some "viking://resources/openclaw/main/memory-sync/root/MEMORY")]
  ovConfigPath := none
  ovConfigFingerprint := none
  lastRunStatus := some "running"
  lastRunReason := some "boot"

/-- A demonstration local filesystem read used by the read-path witnesses. -/
def demoLocalRead : String → Except String String :=
  fun rel =>
    if rel = "MEMORY.md" then Except.ok "L1\nL2\nL3\nL4" else Except.error "ENOENT"

/-! Association list lemmas. -/

theorem alistLookup_set_self {α : Type} (m : List (String × α)) (k : String) (v : α) :
    alistLookup (alistSet m k v) k = some v := by
  induction m with
  | nil => simp [alistSet, alistLookup]
  | cons hd tl ih =>
    obtain ⟨k0, v0⟩ := hd
    by_cases h : k0 = k
    · simp [alistSet, alistLookup, h]
    · simp only [alistSet, alistLookup, beq_iff_eq, h, if_false, ih]

theorem alistLookup_set_ne {α : Type} (m : List (String × α)) (k key : String) (v : α)
    (h : key ≠ k) : alistLookup (alistSet m k v) key = alistLookup m key := by
  have h' : ¬(k = key) := fun hh => h (Eq.symm hh)
  induction m with
  | nil => simp [alistSet, alistLookup, h']
  | cons hd tl ih =>
    obtain ⟨k0, v0⟩ := hd
    by_cases h0 : k0 = k
    · subst h0
      simp [alistSet, alistLookup, h']
    · simp [alistSet, alistLookup, h0, ih]

theorem alistLookup_erase_ne {α : Type} (m : List (String × α)) (k key : String)
    (h : key ≠ k) : alistLookup (alistErase m k) key = alistLookup m key := by
  have h' : ¬(k = key) := fun hh => h (Eq.symm hh)
  induction m with
  | nil => simp [alistErase]
  | cons hd tl ih =>
    obtain ⟨k0, v0⟩ := hd
    by_cases h0 : k0 = k
    · subst h0
      simp [alistErase, alistLookup, h']
    · simp [alistErase, alistLookup, h0, ih]

/-! Trace-shape and import-count lemmas for the engine primitives. -/

theorem pathExists_trace (o : RemoteOracle) (u : String) :
    (pathExists o u).2 = [RemoteCall.stat u] := by
  unfold pathExists
  cases o.stat u with
  | none => rfl
  | some e =>
    by_cases h : shouldIgnoreMissingPathError e = true
    · simp [h]
    · simp [h]

theorem countP_pathExists {q : RemoteCall → Bool} (hq : ImportOnlyPred q)
    (o : RemoteOracle) (u : String) : (pathExists o u).2.countP q = 0 := by
  rw [pathExists_trace]
  simp [List.countP_cons, hq.1 u]

theorem countP_ensureTargetParent {q : RemoteCall → Bool} (hq : ImportOnlyPred q)
    (o : RemoteOracle) (u : String) : (ensureTargetParent o u).2.countP q = 0 := by
  have ht : (pathExists o u).2.countP q = 0 := countP_pathExists hq o u
  unfold ensureTargetParent
  rcases hpe : pathExists o u with ⟨r, t⟩
  rw [hpe] at ht
  match r with
  | Except.error e => simpa using ht
  | Except.ok true => simpa using ht
  | Except.ok false =>
    cases hmk : o.mkdir u with
    | none => simp [List.countP_append, ht, List.countP_cons, hq.2.1 u]
    | some e =>
      by_cases h : shouldIgnoreExistingPathError e = true
      · simp [h, List.countP_append, ht, List.countP_cons, hq.2.1 u]
      · simp [h, List.countP_append, ht, List.countP_cons, hq.2.1 u]

theorem countP_tryRemove {q : RemoteCall → Bool} (hq : ImportOnlyPred q)
    (o : RemoteOracle) (u : String) : (tryRemove o u).2.countP q = 0 := by
  have ht : (pathExists o u).2.countP q = 0 := countP_pathExists hq o u
  unfold tryRemove
  rcases hpe : pathExists o u with ⟨r, t⟩
  rw [hpe] at ht
  match r with
  | Except.error e => simpa using ht
  | Except.ok false => simpa using ht
  | Except.ok true =>
    cases hrm : o.remove u true with
    | none => simp [List.countP_append, ht, List.countP_cons, hq.2.2.1 u]
    | some e =>
      by_cases h : shouldIgnoreMissingPathError e = true
      · simp [h, List.countP_append, ht, List.countP_cons, hq.2.2.1 u]
      · simp [h, List.countP_append, ht, List.countP_cons, hq.2.2.1 u]

theorem countP_cleanupTraceFor {q : RemoteCall → Bool} (hq : ImportOnlyPred q)
    (o : RemoteOracle) (pu : Option String) : (cleanupTraceFor o pu).countP q = 0 := by
  cases pu with
  | none => simp [cleanupTraceFor]
  | some u => simpa [cleanupTraceFor] using countP_tryRemove hq o u

/-! Lemmas about one iteration of the run loops. -/

theorem upsertStep_trace_countP {q : RemoteCall → Bool} (hq : ImportOnlyPred q)
    (o : RemoteOracle) (acc : RunOutcome) (f : LocalSyncFile) :
    (upsertStep o acc f).trace.countP q
      = acc.trace.countP q + (syncFile o f).2.countP q := by
  unfold upsertStep
  rcases hsf : syncFile o f with ⟨r, t⟩
  cases r with
  | ok u =>
      simp [List.countP_append, countP_cleanupTraceFor hq]
  | error e =>
      simp [List.countP_append]

theorem upsertStep_hadErrors (o : RemoteOracle) (acc : RunOutcome) (f : LocalSyncFile) :
    (upsertStep o acc f).hadErrors = (acc.hadErrors || !(isOkB (syncFile o f).1)) := by
  unfold upsertStep
  rcases hsf : syncFile o f with ⟨r, t⟩
  cases r with
  | ok u => simp [hsf, isOkB]
  | error e => simp [hsf, isOkB]

theorem upsertStep_snapshot (o : RemoteOracle) (acc : RunOutcome) (f : LocalSyncFile) :
    (upsertStep o acc f).snapshot
      = (if isOkB (syncFile o f).1 then
          alistSet acc.snapshot f.relPath ⟨f.fingerprint, f.desiredRootUri⟩
        else acc.snapshot) := by
  unfold upsertStep
  rcases hsf : syncFile o f with ⟨r, t⟩
  cases r with
  | ok u => simp [hsf, isOkB]
  | error e => simp [hsf, isOkB]

theorem staleStep_trace_countP {q : RemoteCall → Bool} (hq : ImportOnlyPred q)
    (o : RemoteOracle) (acc : RunOutcome) (e : String × SyncedFileSnapshot) :
    (staleStep o acc e).trace.countP q = acc.trace.countP q := by
  unfold staleStep
  rcases hr : tryRemove o e.2.uri with ⟨r, t⟩
  have ht : t.countP q = 0 := by
    have := countP_tryRemove hq o e.2.uri
    rw [hr] at this
    exact this
  cases r with
  | ok u => simp [List.countP_append, ht]
  | error err => simp [List.countP_append, ht]

theorem staleStep_hadErrors (o : RemoteOracle) (acc : RunOutcome)
    (e : String × SyncedFileSnapshot) :
    (staleStep o acc e).hadErrors = (acc.hadErrors || !(isOkB (tryRemove o e.2.uri).1)) := by
  unfold staleStep
  rcases hr : tryRemove o e.2.uri with ⟨r, t⟩
  cases r with
  | ok u => simp [hr, isOkB]
  | error err => simp [hr, isOkB]

theorem staleStep_snapshot (o : RemoteOracle) (acc : RunOutcome)
    (e : String × SyncedFileSnapshot) :
    (staleStep o acc e).snapshot
      = (if isOkB (tryRemove o e.2.uri).1 then alistErase acc.snapshot e.1
        else acc.snapshot) := by
  unfold staleStep
  rcases hr : tryRemove o e.2.uri with ⟨r, t⟩
  cases r with
  | ok u => simp [hr, isOkB]
  | error err => simp [hr, isOkB]

/-! Lemmas about the whole loops (folds). -/

theorem upsertFold_trace_countP {q : RemoteCall → Bool} (hq : ImportOnlyPred q)
    (o : RemoteOracle) (l : List LocalSyncFile) (acc : RunOutcome) :
    (l.foldl (upsertStep o) acc).trace.countP q
      = acc.trace.countP q + (l.map (fun f => (syncFile o f).2.countP q)).sum := by
  induction l generalizing acc with
  | nil => simp
  | cons f rest ih =>
    simp only [List.foldl_cons, List.map_cons, List.sum_cons]
    rw [ih, upsertStep_trace_countP hq]
    omega

theorem upsertFold_hadErrors (o : RemoteOracle) (l : List LocalSyncFile) (acc : RunOutcome) :
    (l.foldl (upsertStep o) acc).hadErrors
      = (acc.hadErrors || l.any (fun f => !(isOkB (syncFile o f).1))) := by
  induction l generalizing acc with
  | nil => simp
  | cons f rest ih =>
    simp only [List.foldl_cons, List.any_cons]
    rw [ih, upsertStep_hadErrors]
    cases acc.hadErrors <;> simp

theorem upsertFold_snapshot_preserved (o : RemoteOracle) (l : List LocalSyncFile)
    (acc : RunOutcome) (key : String) (hkey : ∀ f ∈ l, f.relPath ≠ key) :
    alistLookup (l.foldl (upsertStep o) acc).snapshot key = alistLookup acc.snapshot key := by
  induction l generalizing acc with
  | nil => rfl
  | cons f rest ih =>
    simp only [List.foldl_cons]
    rw [ih _ (fun g hg => hkey g (List.mem_cons_of_mem f hg))]
    rw [upsertStep_snapshot]
    by_cases hok : isOkB (syncFile o f).1 = true
    · rw [if_pos hok]
      exact alistLookup_set_ne _ _ _ _ fun hh =>
        hkey f (List.mem_cons_self f rest) (Eq.symm hh)
    · rw [if_neg hok]

theorem upsertFold_snapshot_mem (o : RemoteOracle) (l : List LocalSyncFile)
    (acc : RunOutcome) (hkeys : (l.map LocalSyncFile.relPath).Nodup)
    (hok : ∀ f ∈ l, isOkB (syncFile o f).1 = true) :
    ∀ f ∈ l, alistLookup (l.foldl (upsertStep o) acc).snapshot f.relPath
      = some ⟨f.fingerprint, f.desiredRootUri⟩ := by
  induction l generalizing acc with
  | nil => intro f hf; cases hf
  | cons g rest ih =>
    intro f hf
    simp only [List.map_cons, List.nodup_cons] at hkeys
    rcases List.mem_cons.mp hf with hfg | hfrest
    · subst hfg
      simp only [List.foldl_cons]
      rw [upsertFold_snapshot_preserved o rest _ f.relPath
            (fun g hg hgeq => hkeys.1 (hgeq ▸ List.mem_map_of_mem LocalSyncFile.relPath hg))]
      rw [upsertStep_snapshot, if_pos (hok f (List.mem_cons_self f rest))]
      exact alistLookup_set_self _ _ _
    · simp only [List.foldl_cons]
      exact ih _ hkeys.2 (fun g hg => hok g (List.mem_cons_of_mem _ hg)) f hfrest

theorem staleFold_trace_countP {q : RemoteCall → Bool} (hq : ImportOnlyPred q)
    (o : RemoteOracle) (l : List (String × SyncedFileSnapshot)) (acc : RunOutcome) :
    (l.foldl (staleStep o) acc).trace.countP q = acc.trace.countP q := by
  induction l generalizing acc with
  | nil => rfl
  | cons e rest ih =>
    simp only [List.foldl_cons]
    rw [ih, staleStep_trace_countP hq]

theorem staleFold_hadErrors (o : RemoteOracle) (l : List (String × SyncedFileSnapshot))
    (acc : RunOutcome) :
    (l.foldl (staleStep o) acc).hadErrors
      = (acc.hadErrors || l.any (fun e => !(isOkB (tryRemove o e.2.uri).1))) := by
  induction l generalizing acc with
  | nil => simp
  | cons e rest ih =>
    simp only [List.foldl_cons, List.any_cons]
    rw [ih, staleStep_hadErrors]
    cases acc.hadErrors <;> simp

theorem staleFold_snapshot_preserved (o : RemoteOracle)
    (l : List (String × SyncedFileSnapshot)) (acc : RunOutcome) (key : String)
    (hkey : ∀ e ∈ l, e.1 ≠ key) :
    alistLookup (l.foldl (staleStep o) acc).snapshot key = alistLookup acc.snapshot key := by
  induction l generalizing acc with
  | nil => rfl
  | cons e rest ih =>
    simp only [List.foldl_cons]
    rw [ih _ (fun g hg => hkey g (List.mem_cons_of_mem e hg))]
    rw [staleStep_snapshot]
    by_cases hok : isOkB (tryRemove o e.2.uri).1 = true
    · rw [if_pos hok]
      exact alistLookup_erase_ne _ _ _ fun hh =>
        hkey e (List.mem_cons_self e rest) (Eq.symm hh)
    · rw [if_neg hok]

/-! Import-count case analysis of the per-file protocol. -/

theorem importOnly_isAddResourceCall : ImportOnlyPred isAddResourceCall :=
  ⟨fun _ => rfl, fun _ => rfl, fun _ _ => rfl, fun _ _ => rfl, rfl, fun _ => rfl, fun _ => rfl⟩

theorem importOnly_isImportOf (p : String) : ImportOnlyPred (isImportOf p) :=
  ⟨fun _ => rfl, fun _ => rfl, fun _ _ => rfl, fun _ _ => rfl, rfl, fun _ => rfl, fun _ => rfl⟩

theorem countP_syncFile_of_ne {q : RemoteCall → Bool} (hq : ImportOnlyPred q)
    (o : RemoteOracle) (f : LocalSyncFile)
    (hne : q (RemoteCall.addResource f.fullPath f.targetParentUri) = false) :
    (syncFile o f).2.countP q = 0 := by
  have h1 := countP_ensureTargetParent hq o f.targetParentUri
  have h2 := countP_tryRemove hq o f.desiredRootUri
  unfold syncFile
  rcases hp : ensureTargetParent o f.targetParentUri with ⟨r1, t1⟩
  rw [hp] at h1
  cases r1 with
  | error e => simpa using h1
  | ok u =>
    rcases hr : tryRemove o f.desiredRootUri with ⟨r2, t2⟩
    rw [hr] at h2
    cases r2 with
    | error e => simp [List.countP_append, h1, h2]
    | ok u2 =>
      cases ha : o.addResource f.fullPath f.targetParentUri with
      | error e => simp [List.countP_append, List.countP_cons, h1, h2, hne]
      | ok rootField =>
        cases rootField with
        | none => simp [List.countP_append, List.countP_cons, h1, h2, hne]
        | some ir =>
          by_cases hemp : ir = ""
          · simp [hemp, List.countP_append, List.countP_cons, h1, h2, hne]
          · by_cases hnm : normalizeUri ir = normalizeUri f.desiredRootUri
            · simp [hemp, hnm, List.countP_append, List.countP_cons, h1, h2, hne]
            · cases hmv : o.move ir f.desiredRootUri with
              | none =>
                simp [hemp, hnm, hr, hmv, List.countP_append, List.countP_cons, h1, h2, hne,
                  hq.2.2.2.1]
              | some e =>
                simp [hemp, hnm, hr, hmv, List.countP_append, List.countP_cons, h1, h2, hne,
                  hq.2.2.2.1]

theorem countP_syncFile_of_ok {q : RemoteCall → Bool} (hq : ImportOnlyPred q)
    (o : RemoteOracle) (f : LocalSyncFile) :
    isOkB (syncFile o f).1 = true →
    (syncFile o f).2.countP q
      = (if q (RemoteCall.addResource f.fullPath f.targetParentUri) then 1 else 0) := by
  have h1 := countP_ensureTargetParent hq o f.targetParentUri
  have h2 := countP_tryRemove hq o f.desiredRootUri
  unfold syncFile
  rcases hp : ensureTargetParent o f.targetParentUri with ⟨r1, t1⟩
  rw [hp] at h1
  cases r1 with
  | error e => intro h; simp [isOkB] at h
  | ok u =>
    rcases hr : tryRemove o f.desiredRootUri with ⟨r2, t2⟩
    rw [hr] at h2
    cases r2 with
    | error e => intro h; simp [isOkB] at h
    | ok u2 =>
      cases ha : o.addResource f.fullPath f.targetParentUri with
      | error e => intro h; simp [isOkB] at h
      | ok rootField =>
        cases rootField with
        | none => intro h; simp [isOkB] at h
        | some ir =>
          by_cases hemp : ir = ""
          · intro h; simp [hemp, isOkB] at h
          · by_cases hnm : normalizeUri ir = normalizeUri f.desiredRootUri
            · intro _
              simp [hemp, hnm, List.countP_append, List.countP_cons, h1, h2]
            · cases hmv : o.move ir f.desiredRootUri with
              | none =>
                intro _
                simp [hemp, hnm, hr, hmv, List.countP_append, List.countP_cons, h1, h2,
                  hq.2.2.2.1]
              | some e =>
                intro h
                simp [hemp, hnm, hr, hmv, isOkB] at h


/-! Characterisations of the executing phase and of a whole run. -/

theorem executePhase_snapshot (o : RemoteOracle) (cfg : SyncConfigModel)
    (snap : List (String × SyncedFileSnapshot)) (plan : List LocalSyncFile)
    (stale : List (String × SyncedFileSnapshot)) :
    (executePhase o cfg snap plan stale).snapshot
      = (stale.foldl (staleStep o) (plan.foldl (upsertStep o) ⟨snap, false, []⟩)).snapshot := by
  unfold executePhase
  by_cases hw : cfg.waitForProcessing = true
  · cases o.waitProcessed with
    | none => simp [hw]
    | some e => simp [hw]
  · simp [hw]

theorem executePhase_trace_countP {q : RemoteCall → Bool} (hq : ImportOnlyPred q)
    (o : RemoteOracle) (cfg : SyncConfigModel)
    (snap : List (String × SyncedFileSnapshot)) (plan : List LocalSyncFile)
    (stale : List (String × SyncedFileSnapshot)) :
    (executePhase o cfg snap plan stale).trace.countP q
      = (plan.map (fun f => (syncFile o f).2.countP q)).sum := by
  have hcore :
      (stale.foldl (staleStep o) (plan.foldl (upsertStep o) ⟨snap, false, []⟩)).trace.countP q
        = (plan.map (fun f => (syncFile o f).2.countP q)).sum := by
    rw [staleFold_trace_countP hq, upsertFold_trace_countP hq]
    simp
  unfold executePhase
  by_cases hw : cfg.waitForProcessing = true
  · cases o.waitProcessed with
    | none => simp [hw, List.countP_append, List.countP_cons, hq.2.2.2.2.1, hcore]
    | some e => simp [hw, List.countP_append, List.countP_cons, hq.2.2.2.2.1, hcore]
  · simp [hw, hcore]

theorem executePhase_hadErrors (o : RemoteOracle) (cfg : SyncConfigModel)
    (snap : List (String × SyncedFileSnapshot)) (plan : List LocalSyncFile)
    (stale : List (String × SyncedFileSnapshot)) :
    (executePhase o cfg snap plan stale).hadErrors
      = (plan.any (fun f => !(isOkB (syncFile o f).1))
          || stale.any (fun e => !(isOkB (tryRemove o e.2.uri).1))
          || (cfg.waitForProcessing && (o.waitProcessed).isSome)) := by
  have hcore :
      (stale.foldl (staleStep o) (plan.foldl (upsertStep o) ⟨snap, false, []⟩)).hadErrors
        = (plan.any (fun f => !(isOkB (syncFile o f).1))
            || stale.any (fun e => !(isOkB (tryRemove o e.2.uri).1))) := by
    rw [staleFold_hadErrors, upsertFold_hadErrors]
    simp
  unfold executePhase
  by_cases hw : cfg.waitForProcessing = true
  · cases o.waitProcessed with
    | none => simp [hw, hcore]
    | some e => simp [hw, hcore]
  · simp [hw, hcore]

theorem syncRun_trace (st : ManagerState) (force : Bool) (ov : OvConfigState)
    (files : List LocalSyncFile) (o : RemoteOracle) (cfg : SyncConfigModel) (r : String) :
    (syncRun st force ov files o cfg r).2
      = (executePhase o cfg st.syncedSnapshot (syncRunFilesToSync st force ov files)
          (staleEntriesOf st.syncedSnapshot files)).trace := rfl

theorem syncRun_snapshot (st : ManagerState) (force : Bool) (ov : OvConfigState)
    (files : List LocalSyncFile) (o : RemoteOracle) (cfg : SyncConfigModel) (r : String) :
    (syncRun st force ov files o cfg r).1.syncedSnapshot
      = (executePhase o cfg st.syncedSnapshot (syncRunFilesToSync st force ov files)
          (staleEntriesOf st.syncedSnapshot files)).snapshot := rfl

theorem syncRun_lastRunStatus (st : ManagerState) (force : Bool) (ov : OvConfigState)
    (files : List LocalSyncFile) (o : RemoteOracle) (cfg : SyncConfigModel) (r : String) :
    (syncRun st force ov files o cfg r).1.lastRunStatus
      = (if (executePhase o cfg st.syncedSnapshot (syncRunFilesToSync st force ov files)
              (staleEntriesOf st.syncedSnapshot files)).hadErrors then RunStatus.failed
        else RunStatus.success) := rfl

theorem syncRun_recoveryNeeded (st : ManagerState) (force : Bool) (ov : OvConfigState)
    (files : List LocalSyncFile) (o : RemoteOracle) (cfg : SyncConfigModel) (r : String) :
    (syncRun st force ov files o cfg r).1.snapshotRecoveryNeeded
      = (executePhase o cfg st.syncedSnapshot (syncRunFilesToSync st force ov files)
          (staleEntriesOf st.syncedSnapshot files)).hadErrors := rfl

theorem syncRun_ovConfig (st : ManagerState) (force : Bool) (ov : OvConfigState)
    (files : List LocalSyncFile) (o : RemoteOracle) (cfg : SyncConfigModel) (r : String) :
    (syncRun st force ov files o cfg r).1.ovConfigPath = ov.path ∧
    (syncRun st force ov files o cfg r).1.ovConfigFingerprint = ov.fingerprint := ⟨rfl, rfl⟩

theorem syncRun_trace_countP {q : RemoteCall → Bool} (hq : ImportOnlyPred q)
    (st : ManagerState) (force : Bool) (ov : OvConfigState) (files : List LocalSyncFile)
    (o : RemoteOracle) (cfg : SyncConfigModel) (r : String) :
    (syncRun st force ov files o cfg r).2.countP q
      = ((syncRunFilesToSync st force ov files).map
          (fun f => (syncFile o f).2.countP q)).sum := by
  rw [syncRun_trace, executePhase_trace_countP hq]

/-! Planning lemmas. -/

theorem planFilesToSync_full (snap : List (String × SyncedFileSnapshot))
    (files : List LocalSyncFile) : planFilesToSync true snap files = files := rfl

theorem plan_subset (FF : Bool) (snap : List (String × SyncedFileSnapshot))
    (files : List LocalSyncFile) :
    ∀ f ∈ planFilesToSync FF snap files, f ∈ files := by
  intro f hf
  cases FF with
  | true => exact hf
  | false => exact (List.filter_sublist files).subset hf

theorem entryMatches_of_not_planned {snap : List (String × SyncedFileSnapshot)}
    {files : List LocalSyncFile} {FF : Bool} {f : LocalSyncFile}
    (hf : f ∈ files) (hnot : f ∉ planFilesToSync FF snap files) : entryMatches snap f := by
  cases FF with
  | true => exact absurd hf hnot
  | false =>
    have hpred :
        ¬((match alistLookup snap f.relPath with
          | none => true
          | some previous =>
              (previous.fingerprint != f.fingerprint) ||
              (normalizeUri previous.uri != normalizeUri f.desiredRootUri)) = true) := by
      intro hp
      exact hnot (List.mem_filter.mpr ⟨hf, hp⟩)
    cases hlk : alistLookup snap f.relPath with
    | none => rw [hlk] at hpred; simp at hpred
    | some prev =>
      rw [hlk] at hpred
      simp only [Bool.or_eq_true, bne_iff_ne, not_or, not_not] at hpred
      exact ⟨prev, hlk, hpred.1, hpred.2⟩

theorem plan_eq_nil_of_matches {snap : List (String × SyncedFileSnapshot)}
    {files : List LocalSyncFile} (h : ∀ f ∈ files, entryMatches snap f) :
    planFilesToSync false snap files = [] := by
  unfold planFilesToSync
  simp only [Bool.false_eq_true, if_false]
  rw [List.filter_eq_nil_iff]
  intro f hf
  obtain ⟨e, hlk, hfp, huri⟩ := h f hf
  rw [hlk]
  simp [hfp, huri]

theorem hasOvConfigChanged_of_recorded {st : ManagerState} {ov : OvConfigState}
    (hp : st.ovConfigPath = ov.path) (hf : st.ovConfigFingerprint = ov.fingerprint) :
    hasOvConfigChanged st ov = false := by
  unfold hasOvConfigChanged
  rw [hp, hf]
  by_cases h : (ov.path.isNone && ov.path.isNone) = true
  · simp [h]
  · simp [h]

theorem staleEntriesOf_keys {snap : List (String × SyncedFileSnapshot)}
    {files : List LocalSyncFile} :
    ∀ e ∈ staleEntriesOf snap files, ∀ f ∈ files, e.1 ≠ f.relPath := by
  intro e he f hf
  have hmem := List.mem_filter.mp he
  intro hkey
  have : files.any (fun g => g.relPath == e.1) = true :=
    List.any_eq_true.mpr ⟨f, hf, by simp [hkey]⟩
  rw [this] at hmem
  simp at hmem

theorem plan_sublist (FF : Bool) (snap : List (String × SyncedFileSnapshot))
    (files : List LocalSyncFile) : (planFilesToSync FF snap files).Sublist files := by
  cases FF with
  | true => exact List.Sublist.refl files
  | false => exact List.filter_sublist files

/-! Claim theorems. -/

/-- C3: the persisted final status of a sync run is `failed` exactly when at
least one per-file sync, one stale removal, or the queue wait failed; the
per-file and stale failures are caught inside the loops, which is reflected in
`syncRun` being a total function — no error escapes to the caller, and the
condition below ranges over every planned file and every stale entry, showing
the run continued past each failure. -/
theorem sync_run_failed_iff_any_failure (st : ManagerState) (force : Bool)
    (ov : OvConfigState) (files : List LocalSyncFile) (o : RemoteOracle)
    (cfg : SyncConfigModel) (r : String) :
    (syncRun st force ov files o cfg r).1.lastRunStatus = RunStatus.failed
      ↔ (((syncRunFilesToSync st force ov files).any (fun f => !(isOkB (syncFile o f).1))
          || (staleEntriesOf st.syncedSnapshot files).any
              (fun e => !(isOkB (tryRemove o e.2.uri).1))
          || (cfg.waitForProcessing && (o.waitProcessed).isSome)) = true) := by
  rw [syncRun_lastRunStatus, executePhase_hadErrors]
  by_cases hB :
      ((syncRunFilesToSync st force ov files).any (fun f => !(isOkB (syncFile o f).1))
        || (staleEntriesOf st.syncedSnapshot files).any
            (fun e => !(isOkB (tryRemove o e.2.uri).1))
        || (cfg.waitForProcessing && (o.waitProcessed).isSome)) = true
  · simp [hB]
  · simp [hB]

/-- C1: on a workspace whose files do not change between two consecutive runs
of the same manager (same scanned candidates, same external-config state, no
explicit force on the second run), if the first run completes with status
`success` then afterwards every candidate matches its snapshot entry in
fingerprint and normalised desired root URI, the upsert set of the second run
is empty, and the second run performs zero import (`addResource`) calls. -/
theorem second_sync_run_imports_nothing
    (st0 : ManagerState) (force1 : Bool) (ov : OvConfigState) (files : List LocalSyncFile)
    (o : RemoteOracle) (cfg : SyncConfigModel) (r1 r2 : String)
    (hnodup : (files.map LocalSyncFile.relPath).Nodup)
    (hsuccess : (syncRun st0 force1 ov files o cfg r1).1.lastRunStatus = RunStatus.success) :
    (∀ f ∈ files, entryMatches (syncRun st0 force1 ov files o cfg r1).1.syncedSnapshot f) ∧
    syncRunFilesToSync (syncRun st0 force1 ov files o cfg r1).1 false ov files = [] ∧
    importCount (syncRun (syncRun st0 force1 ov files o cfg r1).1 false ov files o cfg r2).2
      = 0 := by
  have hhe : (executePhase o cfg st0.syncedSnapshot (syncRunFilesToSync st0 force1 ov files)
      (staleEntriesOf st0.syncedSnapshot files)).hadErrors = false := by
    rw [syncRun_lastRunStatus] at hsuccess
    by_cases h : (executePhase o cfg st0.syncedSnapshot
        (syncRunFilesToSync st0 force1 ov files)
        (staleEntriesOf st0.syncedSnapshot files)).hadErrors = true
    · rw [if_pos h] at hsuccess
      cases hsuccess
    · exact Bool.not_eq_true _ ▸ Bool.of_not_eq_true h
  have hany := executePhase_hadErrors o cfg st0.syncedSnapshot
      (syncRunFilesToSync st0 force1 ov files) (staleEntriesOf st0.syncedSnapshot files)
  rw [hhe] at hany
  have hok : ∀ f ∈ syncRunFilesToSync st0 force1 ov files, isOkB (syncFile o f).1 = true := by
    intro f hf
    have h1 : (syncRunFilesToSync st0 force1 ov files).any
        (fun f => !(isOkB (syncFile o f).1)) = false := by
      cases hx : (syncRunFilesToSync st0 force1 ov files).any
          (fun f => !(isOkB (syncFile o f).1)) with
      | false => rfl
      | true => rw [hx] at hany; simp at hany
    have := List.any_eq_false.mp h1 f hf
    simpa using this
  have hmatch : ∀ f ∈ files,
      entryMatches (syncRun st0 force1 ov files o cfg r1).1.syncedSnapshot f := by
    intro f hf
    have hstalekeys : ∀ e ∈ staleEntriesOf st0.syncedSnapshot files, e.1 ≠ f.relPath :=
      fun e he => staleEntriesOf_keys e he f hf
    have hsnap := syncRun_snapshot st0 force1 ov files o cfg r1
    rw [executePhase_snapshot] at hsnap
    by_cases hplan : f ∈ syncRunFilesToSync st0 force1 ov files
    · have hplankeys : ((syncRunFilesToSync st0 force1 ov files).map
          LocalSyncFile.relPath).Nodup :=
        ((plan_sublist _ _ _).map LocalSyncFile.relPath).nodup hnodup
      refine ⟨⟨f.fingerprint, f.desiredRootUri⟩, ?_, rfl, rfl⟩
      rw [hsnap, staleFold_snapshot_preserved o _ _ _
        (fun e he => hstalekeys e he)]
      exact upsertFold_snapshot_mem o _ _ hplankeys hok f hplan
    · have hkeysfree : ∀ g ∈ syncRunFilesToSync st0 force1 ov files, g.relPath ≠ f.relPath := by
        intro g hg hgk
        exact hplan (List.inj_on_of_nodup_map hnodup
          (plan_subset _ _ _ g hg) hf hgk ▸ hg)
      have hbase : entryMatches st0.syncedSnapshot f :=
        entryMatches_of_not_planned hf hplan
      obtain ⟨e, hlk, hfp, huri⟩ := hbase
      refine ⟨e, ?_, hfp, huri⟩
      rw [hsnap, staleFold_snapshot_preserved o _ _ _ (fun e he => hstalekeys e he),
        upsertFold_snapshot_preserved o _ _ _ hkeysfree]
      exact hlk
  have hnil : syncRunFilesToSync (syncRun st0 force1 ov files o cfg r1).1 false ov files
      = [] := by
    have hrec : (syncRun st0 force1 ov files o cfg r1).1.snapshotRecoveryNeeded = false := by
      rw [syncRun_recoveryNeeded]; exact hhe
    have hovc : hasOvConfigChanged (syncRun st0 force1 ov files o cfg r1).1 ov = false :=
      hasOvConfigChanged_of_recorded (syncRun_ovConfig st0 force1 ov files o cfg r1).1.symm
        (syncRun_ovConfig st0 force1 ov files o cfg r1).2.symm
    unfold syncRunFilesToSync
    rw [hrec, hovc]
    simp only [Bool.or_false, Bool.false_or]
    exact plan_eq_nil_of_matches hmatch
  refine ⟨hmatch, hnil, ?_⟩
  show (syncRun (syncRun st0 force1 ov files o cfg r1).1 false ov files o cfg r2).2.countP
      isAddResourceCall = 0
  rw [syncRun_trace_countP importOnly_isAddResourceCall, hnil]
  simp

/-- Witness for C1: one file, an all-success oracle, two consecutive runs. -/
theorem second_sync_run_imports_nothing_witness :
    ([demoFile].map LocalSyncFile.relPath).Nodup ∧
    (syncRun loadedAbsentState false ⟨none, none⟩ [demoFile] demoOkOracle ⟨false⟩
        "boot").1.lastRunStatus = RunStatus.success ∧
    ((∀ f ∈ [demoFile],
        entryMatches (syncRun loadedAbsentState false ⟨none, none⟩ [demoFile] demoOkOracle
          ⟨false⟩ "boot").1.syncedSnapshot f) ∧
      syncRunFilesToSync (syncRun loadedAbsentState false ⟨none, none⟩ [demoFile] demoOkOracle
          ⟨false⟩ "boot").1 false ⟨none, none⟩ [demoFile] = [] ∧
      importCount (syncRun (syncRun loadedAbsentState false ⟨none, none⟩ [demoFile]
          demoOkOracle ⟨false⟩ "boot").1 false ⟨none, none⟩ [demoFile] demoOkOracle ⟨false⟩
          "second").2 = 0) :=
  ⟨by decide, by decide,
    second_sync_run_imports_nothing loadedAbsentState false ⟨none, none⟩ [demoFile]
      demoOkOracle ⟨false⟩ "boot" "second" (by decide) (by decide)⟩

/-- C2: when the loaded persisted snapshot has `lastRunStatus` of `running`
(and likewise `failed`), loading sets the internal recovery flag, and the next
sync run is a full sync: its upsert set is the whole candidate list,
regardless of any fingerprint match. -/
theorem loaded_running_or_failed_forces_full_sync (p : ParsedState)
    (hv : versionSupported p.version = true) (ha : p.agentIdIsString = true)
    (he : p.entries.isSome = true)
    (hs : p.lastRunStatus = some "running" ∨ p.lastRunStatus = some "failed") :
    (applyLoad freshManagerState (LoadInput.parsed p)).snapshotRecoveryNeeded = true ∧
    ∀ (force : Bool) (ov : OvConfigState) (files : List LocalSyncFile),
      syncRunFilesToSync (applyLoad freshManagerState (LoadInput.parsed p)) force ov files
        = files := by
  have hn : p.entries.isNone = false := by
    cases hpe : p.entries with
    | none => rw [hpe] at he; simp at he
    | some l => rfl
  have hrec : (applyLoad freshManagerState (LoadInput.parsed p)).snapshotRecoveryNeeded
      = true := by
    unfold applyLoad
    rcases hs with h | h <;>
      simp [freshManagerState, hv, ha, hn, parseRunStatus, h]
  refine ⟨hrec, ?_⟩
  intro force ov files
  unfold syncRunFilesToSync
  rw [hrec]
  simp [planFilesToSync]

/-- Witness for C2: a concrete version-3 snapshot left in status `running`. -/
theorem loaded_running_or_failed_forces_full_sync_witness :
    versionSupported demoRunningState.version = true ∧
    demoRunningState.agentIdIsString = true ∧
    demoRunningState.entries.isSome = true ∧
    ((applyLoad freshManagerState
        (LoadInput.parsed demoRunningState)).snapshotRecoveryNeeded = true ∧
      ∀ (force : Bool) (ov : OvConfigState) (files : List LocalSyncFile),
        syncRunFilesToSync (applyLoad freshManagerState (LoadInput.parsed demoRunningState))
          force ov files = files) :=
  ⟨by decide, by decide, by decide,
    loaded_running_or_failed_forces_full_sync demoRunningState (by decide) (by decide)
      (by decide) (Or.inl rfl)⟩

/-- C8: any difference between the current external-config state and the one
recorded in the snapshot — a changed fingerprint, a changed resolved path, a
previously absent and now present file, or the reverse — makes
`hasOvConfigChanged` true and turns the next run into a full resync whose
upsert set is the whole candidate list, even when no candidate fingerprint
changed. -/
theorem ov_config_change_forces_full_sync (st : ManagerState) (ov : OvConfigState)
    (hnb : ¬(ov.path = none ∧ st.ovConfigPath = none))
    (hdiff : ov.path ≠ st.ovConfigPath ∨ ov.fingerprint ≠ st.ovConfigFingerprint) :
    hasOvConfigChanged st ov = true ∧
    ∀ (force : Bool) (files : List LocalSyncFile),
      syncRunFilesToSync st force ov files = files := by
  have hguard : (ov.path.isNone && st.ovConfigPath.isNone) = false := by
    cases hop : ov.path with
    | none =>
      cases hsp : st.ovConfigPath with
      | none => exact absurd ⟨hop, hsp⟩ hnb
      | some v => simp
    | some v => simp
  have hchanged : hasOvConfigChanged st ov = true := by
    unfold hasOvConfigChanged
    rw [hguard]
    rcases hdiff with h | h
    · simp [bne_iff_ne, h]
    · by_cases hp : ov.path = st.ovConfigPath
      · simp [hp, bne_iff_ne, h]
      · simp [bne_iff_ne, hp]
  refine ⟨hchanged, ?_⟩
  intro force files
  unfold syncRunFilesToSync
  rw [hchanged]
  simp [planFilesToSync]

/-- Witness for C8: the config file was previously absent and is now
present, so the next run upserts the whole candidate list. -/
theorem ov_config_change_forces_full_sync_witness :
    hasOvConfigChanged loadedAbsentState ⟨some "/ws/ov.conf", some "fp-a"⟩ = true ∧
    syncRunFilesToSync loadedAbsentState false ⟨some "/ws/ov.conf", some "fp-a"⟩ [demoFile]
      = [demoFile] := by
  have h := ov_config_change_forces_full_sync loadedAbsentState
      ⟨some "/ws/ov.conf", some "fp-a"⟩ (by decide) (Or.inl (by decide))
  exact ⟨h.1, h.2 false [demoFile]⟩

/-- C5: when each remote step succeeds (with "already exists" on create and
"not found" on delete already absorbed by `ensureTargetParent` and
`tryRemove`), the per-file protocol runs in order — ensure the target parent,
remove the desired root URI, import into the parent — and issues the extra
remove-and-move pair exactly when the landed URI differs from the desired URI
after trailing-slash normalisation. -/
theorem sync_file_protocol_order (o : RemoteOracle) (f : LocalSyncFile) (landed : String)
    (tp td : List RemoteCall)
    (hpar : ensureTargetParent o f.targetParentUri = (Except.ok (), tp))
    (hrem : tryRemove o f.desiredRootUri = (Except.ok (), td))
    (himp : o.addResource f.fullPath f.targetParentUri = Except.ok (some landed))
    (hne : landed ≠ "")
    (hmv : o.move landed f.desiredRootUri = none) :
    syncFile o f =
      (Except.ok (),
       if normalizeUri landed = normalizeUri f.desiredRootUri then
         tp ++ td ++ [RemoteCall.addResource f.fullPath f.targetParentUri]
       else
         tp ++ td ++ [RemoteCall.addResource f.fullPath f.targetParentUri]
           ++ td ++ [RemoteCall.move landed f.desiredRootUri]) := by
  unfold syncFile
  rw [hpar, hrem, himp]
  by_cases hnm : normalizeUri landed = normalizeUri f.desiredRootUri
  · simp [hne, hnm]
  · simp [hne, hnm, hrem, hmv]

/-- Witness for C5: the race-tolerant oracle — parent missing, create races
into "already exists", desired URI present, delete races into "path not
found", import lands at a different URI, so the desired URI is cleared again
and the landed URI is moved onto it, in exactly this order. -/
theorem sync_file_protocol_order_witness :
    syncFile demoRaceOracle demoFile =
      (Except.ok (),
       [RemoteCall.stat "viking://resources/openclaw/main/memory-sync/root",
        RemoteCall.mkdir "viking://resources/openclaw/main/memory-sync/root",
        RemoteCall.stat "viking://resources/openclaw/main/memory-sync/root/MEMORY",
        RemoteCall.remove "viking://resources/openclaw/main/memory-sync/root/MEMORY" true,
        RemoteCall.addResource "/ws/MEMORY.md"
          "viking://resources/openclaw/main/memory-sync/root",
        RemoteCall.stat "viking://resources/openclaw/main/memory-sync/root/MEMORY",
        RemoteCall.remove "viking://resources/openclaw/main/memory-sync/root/MEMORY" true,
        RemoteCall.move "viking://resources/openclaw/main/memory-sync/root/MEMORY-copy"
          "viking://resources/openclaw/main/memory-sync/root/MEMORY"]) := by
  have h := sync_file_protocol_order demoRaceOracle demoFile
      "viking://resources/openclaw/main/memory-sync/root/MEMORY-copy"
      [RemoteCall.stat "viking://resources/openclaw/main/memory-sync/root",
       RemoteCall.mkdir "viking://resources/openclaw/main/memory-sync/root"]
      [RemoteCall.stat "viking://resources/openclaw/main/memory-sync/root/MEMORY",
       RemoteCall.remove "viking://resources/openclaw/main/memory-sync/root/MEMORY" true]
      (by decide) (by decide) (by decide) (by decide) (by decide)
  rw [h]
  decide

/-- C7: loading the persisted snapshot is total and loads at most once: a
missing file, a read failure, a parse failure, and an unsupported schema
version each yield the absent state (empty entry map, default `success` run
status, no recovery flag), and a second load on an already-loaded manager is
the identity. -/
theorem snapshot_load_absent_cases_and_once :
    applyLoad freshManagerState LoadInput.missing = loadedAbsentState ∧
    applyLoad freshManagerState LoadInput.readError = loadedAbsentState ∧
    applyLoad freshManagerState LoadInput.parseError = loadedAbsentState ∧
    loadedAbsentState.syncedSnapshot = [] ∧
    loadedAbsentState.lastRunStatus = RunStatus.success ∧
    loadedAbsentState.snapshotRecoveryNeeded = false ∧
    (∀ p : ParsedState, versionSupported p.version = false →
        applyLoad freshManagerState (LoadInput.parsed p) = loadedAbsentState) ∧
    (∀ (st : ManagerState) (input : LoadInput), st.snapshotLoaded = true →
        applyLoad st input = st) := by
  refine ⟨rfl, rfl, rfl, rfl, rfl, rfl, ?_, ?_⟩
  · intro p hv
    unfold applyLoad
    simp [freshManagerState, loadedAbsentState, hv]
  · intro st input hl
    unfold applyLoad
    simp [hl]

/-- Witness for C7: an unsupported version 7 snapshot yields the absent
state. -/
theorem snapshot_load_absent_cases_and_once_witness :
    versionSupported demoBadVersionState.version = false ∧
    applyLoad freshManagerState (LoadInput.parsed demoBadVersionState) = loadedAbsentState :=
  ⟨by decide,
    snapshot_load_absent_cases_and_once.2.2.2.2.2.2.1 demoBadVersionState (by decide)⟩

/-- C9 counterexample: a query that is empty after trimming does not fail
with an error — `search` short-circuits and returns an empty result list
(`SearchOutcome.emptyResults`, a normal return distinct from the thrown
`closedError` outcome), so the claim that an empty query "fails fast with a
descriptive error" is false on the code. -/
theorem empty_query_returns_results_not_error :
    searchEntry false "   " = SearchOutcome.emptyResults ∧
    SearchOutcome.emptyResults ≠ SearchOutcome.closedError :=
  ⟨by decide, by decide⟩

/-- C9 (amended): an empty-after-trimming relative path and a path escaping
the workspace through `..` segments each fail fast with a descriptive error,
and `readFile` then performs no remote call (empty trace) before any
filesystem access; an empty-after-trimming search query short-circuits to an
empty result list before any remote call, without raising an error. -/
theorem local_invariant_violations_fail_fast :
    (∀ input : String, strTrim input = "" →
        ensureSafeRelPath input = Except.error "path required") ∧
    (∀ input : String, strTrim input ≠ "" →
        escapesWorkspace (posixNormalize (stripLeadingSlashes
          (backslashToSlash (strTrim input)))) = true →
        ensureSafeRelPath input = Except.error ("invalid path: " ++ input)) ∧
    (∀ (o : RemoteOracle) (localRead : String → Except String String)
        (toRoot toContent : String → String) (tiered : Option Bool) (input : String)
        (fromQ linesQ : Option Int) (m : String),
        ensureSafeRelPath input = Except.error m →
        readFileOp o localRead toRoot toContent tiered false input fromQ linesQ
          = (Except.error (ReadError.invalidPath m), [])) ∧
    (∀ q : String, strTrim q = "" → searchEntry false q = SearchOutcome.emptyResults) := by
  refine ⟨?_, ?_, ?_, ?_⟩
  · intro input h
    unfold ensureSafeRelPath
    simp [h]
  · intro input h1 h2
    unfold ensureSafeRelPath
    simp [h1, h2]
  · intro o localRead toRoot toContent tiered input fromQ linesQ m h
    unfold readFileOp
    simp [h]
  · intro q h
    unfold searchEntry
    simp [h]

/-- Witness for the amended C9: a `..`-escaping path is rejected with the
descriptive invalid-path error. -/
theorem local_invariant_violations_fail_fast_witness :
    strTrim "../secret.md" ≠ "" ∧
    escapesWorkspace (posixNormalize (stripLeadingSlashes
      (backslashToSlash (strTrim "../secret.md")))) = true ∧
    ensureSafeRelPath "../secret.md" = Except.error ("invalid path: " ++ "../secret.md") :=
  ⟨by decide, by decide,
    local_invariant_violations_fail_fast.2.1 "../secret.md" (by decide) (by decide)⟩

/-- C10: when the remote read path fails (both the overview of the root URI
and the direct content read throw), `readFile` falls back to the local
workspace file and returns its content sliced to the requested line range; the
remote error never propagates, and only when the local read itself fails does
an error (the local one) reach the caller. -/
theorem read_falls_back_to_local (o : RemoteOracle) (toRoot toContent : String → String)
    (tiered : Option Bool) (input relPath : String) (fromQ linesQ : Option Int)
    (eo er : RemoteError)
    (hsafe : ensureSafeRelPath input = Except.ok relPath)
    (hover : o.overview (toRoot relPath) = Except.error eo)
    (hread : o.read (toContent relPath) = Except.error er) :
    ∀ localRead : String → Except String String,
      (∀ content, localRead relPath = Except.ok content →
          (readFileOp o localRead toRoot toContent tiered false input fromQ linesQ).1
            = Except.ok ⟨sliceLines content fromQ linesQ, relPath⟩) ∧
      (∀ m, localRead relPath = Except.error m →
          (readFileOp o localRead toRoot toContent tiered false input fromQ linesQ).1
            = Except.error (ReadError.localFs m)) := by
  intro localRead
  constructor
  · intro content hc
    unfold readFileOp
    by_cases hcond : ((fromQ.isSome || linesQ.isSome) || tiered == some false) = true
    · simp [hsafe, hcond, hread, hc]
    · simp [hsafe, hcond, hread, hover, hc]
  · intro m hm
    unfold readFileOp
    by_cases hcond : ((fromQ.isSome || linesQ.isSome) || tiered == some false) = true
    · simp [hsafe, hcond, hread, hm]
    · simp [hsafe, hcond, hread, hover, hm]

/-- Witness for C10: the remote oracle fails both reads, and the requested
range of the local file is returned instead. -/
theorem read_falls_back_to_local_witness :
    (readFileOp demoOkOracle demoLocalRead (fun r => "viking://root/" ++ r)
        (fun r => "viking://content/" ++ r) none false "MEMORY.md" (some 2) (some 2)).1
      = Except.ok ⟨sliceLines "L1\nL2\nL3\nL4" (some 2) (some 2), "MEMORY.md"⟩ :=
  ((read_falls_back_to_local demoOkOracle (fun r => "viking://root/" ++ r)
      (fun r => "viking://content/" ++ r) none "MEMORY.md" "MEMORY.md" (some 2) (some 2)
      (RemoteError.err "not found") (RemoteError.err "not found") (by decide) rfl rfl)
    demoLocalRead).1 "L1\nL2\nL3\nL4" (by decide)

/-! Helper sums for the per-file import counting. -/

theorem sum_map_zero {α : Type} (l : List α) (c : α → Nat) (h : ∀ g ∈ l, c g = 0) :
    (l.map c).sum = 0 := by
  induction l with
  | nil => rfl
  | cons g rest ih =>
    simp only [List.map_cons, List.sum_cons]
    rw [h g (List.mem_cons_self g rest), ih (fun x hx => h x (List.mem_cons_of_mem _ hx))]

theorem sum_map_single {α : Type} (c : α → Nat) (f : α) :
    ∀ l : List α, l.Nodup → f ∈ l → c f = 1 → (∀ g ∈ l, g ≠ f → c g = 0) →
      (l.map c).sum = 1 := by
  intro l
  induction l with
  | nil => intro _ hf; cases hf
  | cons g rest ih =>
    intro hl hf hcf hother
    rcases List.mem_cons.mp hf with hgf | hfr
    · have hrest : ∀ x ∈ rest, c x = 0 := by
        intro x hx
        refine hother x (List.mem_cons_of_mem _ hx) ?_
        intro hxf
        subst hxf
        exact (List.nodup_cons.mp hl).1 (hgf ▸ hx)
      subst hgf
      simp only [List.map_cons, List.sum_cons]
      rw [hcf, sum_map_zero rest c hrest]
    · have hgne : g ≠ f := by
        intro hgf
        subst hgf
        exact (List.nodup_cons.mp hl).1 hfr
      have hg : c g = 0 := hother g (List.mem_cons_self g rest) hgne
      simp only [List.map_cons, List.sum_cons]
      rw [hg, ih (List.nodup_cons.mp hl).2 hfr hcf
        (fun x hx hxf => hother x (List.mem_cons_of_mem _ hx) hxf)]

theorem syncRunFilesToSync_sublist (st : ManagerState) (force : Bool) (ov : OvConfigState)
    (files : List LocalSyncFile) :
    (syncRunFilesToSync st force ov files).Sublist files :=
  plan_sublist _ _ _

/-- C4 (modelled from the spec): under the single-flight guard, a second sync
call issued while a run is in flight joins the in-flight run, so the combined
remote trace of two concurrent sync calls is the trace of one run; given
distinct local file paths, the combined trace then contains exactly one import
call for each file of the upsert set whose per-file sync succeeds, and none —
never two — for any skipped file. -/
theorem concurrent_syncs_import_each_file_once
    (st : ManagerState) (force : Bool) (ov : OvConfigState) (files : List LocalSyncFile)
    (o : RemoteOracle) (cfg : SyncConfigModel) (r : String) (f : LocalSyncFile)
    (hnodup : (files.map LocalSyncFile.fullPath).Nodup) :
    (f ∈ syncRunFilesToSync st force ov files → isOkB (syncFile o f).1 = true →
      (concurrentSyncPair st force ov files o cfg r).2.countP (isImportOf f.fullPath) = 1) ∧
    (f ∈ files → f ∉ syncRunFilesToSync st force ov files →
      (concurrentSyncPair st force ov files o cfg r).2.countP (isImportOf f.fullPath)
        = 0) := by
  have htrace : (concurrentSyncPair st force ov files o cfg r).2
      = (syncRun st force ov files o cfg r).2 := rfl
  have hq := importOnly_isImportOf f.fullPath
  have hcount := syncRun_trace_countP hq st force ov files o cfg r
  have hfilesnd : files.Nodup := List.Nodup.of_map _ hnodup
  have hsub := syncRunFilesToSync_sublist st force ov files
  constructor
  · intro hmem hok
    rw [htrace, hcount]
    apply sum_map_single _ f _ (hsub.nodup hfilesnd) hmem
    · rw [countP_syncFile_of_ok hq o f hok]
      simp [isImportOf]
    · intro g hg hgne
      apply countP_syncFile_of_ne hq
      have hne : g.fullPath ≠ f.fullPath := by
        intro he
        exact hgne (List.inj_on_of_nodup_map hnodup (hsub.subset hg) (hsub.subset hmem) he)
      simp [isImportOf, hne]
  · intro hfin hnot
    rw [htrace, hcount]
    apply sum_map_zero
    intro g hg
    apply countP_syncFile_of_ne hq
    have hne : g.fullPath ≠ f.fullPath := by
      intro he
      have hgf : g = f := List.inj_on_of_nodup_map hnodup (hsub.subset hg) hfin he
      subst hgf
      exact hnot hg
    simp [isImportOf, hne]

/-- Witness for C4: one file, two joined sync calls, exactly one import in
the combined trace. -/
theorem concurrent_syncs_import_each_file_once_witness :
    ([demoFile].map LocalSyncFile.fullPath).Nodup ∧
    demoFile ∈ syncRunFilesToSync loadedAbsentState false ⟨none, none⟩ [demoFile] ∧
    isOkB (syncFile demoOkOracle demoFile).1 = true ∧
    (concurrentSyncPair loadedAbsentState false ⟨none, none⟩ [demoFile] demoOkOracle ⟨false⟩
        "boot").2.countP (isImportOf demoFile.fullPath) = 1 :=
  ⟨by decide, by decide, by decide,
    (concurrent_syncs_import_each_file_once loadedAbsentState false ⟨none, none⟩ [demoFile]
      demoOkOracle ⟨false⟩ "boot" demoFile (by decide)).1 (by decide) (by decide)⟩

/-- C6 (modelled from the spec): a candidate with no snapshot entry whose
desired root URI already exists remotely with content equal to the local
bytes is adopted into the snapshot — the per-file operation returns the
snapshot entry for the desired URI and its trace is exactly one existence
check and one content read: no import, no mkdir, no delete call. -/
theorem drift_adoption_skips_import (o : RemoteOracle) (localBytes contentUri : String)
    (f : LocalSyncFile)
    (hstat : o.stat f.desiredRootUri = none)
    (hread : o.read contentUri = Except.ok localBytes) :
    adoptOrSyncFile o localBytes contentUri false f
      = (Except.ok (some ⟨f.fingerprint, f.desiredRootUri⟩),
         [RemoteCall.stat f.desiredRootUri, RemoteCall.readContent contentUri]) ∧
    importCount [RemoteCall.stat f.desiredRootUri, RemoteCall.readContent contentUri] = 0 ∧
    ([RemoteCall.stat f.desiredRootUri,
        RemoteCall.readContent contentUri]).countP isMkdirCall = 0 ∧
    ([RemoteCall.stat f.desiredRootUri,
        RemoteCall.readContent contentUri]).countP isRemoveCall = 0 := by
  have hpe : pathExists o f.desiredRootUri
      = (Except.ok true, [RemoteCall.stat f.desiredRootUri]) := by
    unfold pathExists
    rw [hstat]
  refine ⟨?_, ?_, ?_, ?_⟩
  · unfold adoptOrSyncFile
    rw [hpe, hread]
    simp
  · simp [importCount, List.countP_cons, List.countP_nil, isAddResourceCall]
  · simp [List.countP_cons, List.countP_nil, isMkdirCall]
  · simp [List.countP_cons, List.countP_nil, isRemoveCall]

/-- Witness for C6: the adoption oracle — desired URI present, remote bytes
equal to the local bytes — yields adoption with the two-call trace. -/
theorem drift_adoption_skips_import_witness :
    adoptOrSyncFile demoAdoptOracle "# memory\nline1\nline2\n"
        "viking://resources/openclaw/main/memory-sync/root/MEMORY" false demoFile
      = (Except.ok (some ⟨"10:1700000000000",
          "viking://resources/openclaw/main/memory-sync/root/MEMORY"⟩),
         [RemoteCall.stat "viking://resources/openclaw/main/memory-sync/root/MEMORY",
          RemoteCall.readContent
            "viking://resources/openclaw/main/memory-sync/root/MEMORY"]) :=
  (drift_adoption_skips_import demoAdoptOracle "# memory\nline1\nline2\n"
    "viking://resources/openclaw/main/memory-sync/root/MEMORY" demoFile rfl rfl).1

end OV
